import Mathlib

/-!
Shallow embedding of the asset-statistics pipeline of `process_assets.py`
(function `process_asset_data`) together with the ticker derivation of
`analyze_returns.py`, and theorems settling the specification claims.

Numbers are modelled over a linear ordered field `K` (instantiated at `ℝ`
or `ℚ` in the theorems); `numpy.log` and the square root used by
`pandas.std` / `numpy.sqrt` enter as function parameters `ln` and `g`, so
every definition stays executable and the real-number statements
instantiate them with `Real.log` and `Real.sqrt`.

Modelling conventions: field division is total (`x / 0 = 0`), so the
degenerate statistics that `pandas` renders as `NaN` or `inf` (sample
deviation of a single row, Sharpe ratio at zero volatility, mean of an
empty column) appear here as that conventional value — the control flow,
which is what the error-handling claims are about, is unaffected.  The
date alignment keeps the first series' date order, which equals the sorted
intersection `pandas` produces for the chronologically ordered CSV files
the pipeline reads.
-/

namespace ProcessAssets

variable {K : Type} [LinearOrderedField K]

/-- Source constant `trading_days = 252`. -/
def trading_days : ℕ := 252

/-- Source constant `min_history_days = 1260` (five years of data). -/
def min_history_days : ℕ := 1260

/-- One parsed asset CSV file: the file name, whether the parsed frame has a
`Close` column, and its (date, close) rows. Dates are day ordinals. -/
structure AssetFile (K : Type) where
  name : String
  hasClose : Bool
  rows : List (ℕ × K)

/-- Python `f.endswith('.csv')`, on the underlying character list. -/
def endsWithCsv (name : String) : Bool :=
  List.isSuffixOf ".csv".toList name.toList

/-- Line 21 of `process_assets.py`: `asset_file.split('_')[0].upper()` —
the prefix of the file name up to the first underscore, upper-cased. -/
def tickerOf (name : String) : String :=
  String.mk ((name.toList.takeWhile fun c => c ≠ '_').map Char.toUpper)

/-- Line 6 of `analyze_returns.py`:
`ticker_file.split('_')[0].upper().split('.')[0]` — the pipeline ticker
further truncated at the first dot. -/
def tickerOfAnalyze (name : String) : String :=
  String.mk ((tickerOf name).toList.takeWhile fun c => c ≠ '.')

/-- The ticker derivation in the words of the spec: the substring of the
source identifier before the first delimiter, upper-cased.  Stated for an
arbitrary delimiter set so that both source variants can be compared
against it. -/
def specTicker (delims : List Char) (name : String) : String :=
  String.mk ((name.toList.takeWhile fun c => c ∉ delims).map Char.toUpper)

/-- Line 35: `np.log(df['Close'] / df['Close'].shift(1)).dropna()`.
Consecutive differencing of log prices: entry `t` carries the date of row
`t` and the value `ln(close_t / close_(t-1))`; the first row yields the
`NaN` that `dropna` removes. -/
def daily_returns (ln : K → K) : List (ℕ × K) → List (ℕ × K)
  | [] => []
  | [_] => []
  | p :: q :: rest => (q.1, ln (q.2 / p.2)) :: daily_returns ln (q :: rest)

/-- Insertion into the `all_returns` Python dict: overwriting an existing
key keeps its position, a new key is appended. -/
def upsert (acc : List (String × B)) (k : String) (v : B) : List (String × B) :=
  if acc.any fun p => p.1 = k then
    acc.map fun p => if p.1 = k then (k, v) else p
  else acc ++ [(k, v)]

/-- Lines 16-38: the loader loop.  Non-`.csv` names are filtered out,
files without a `Close` column and files with fewer than
`min_history_days` rows are skipped, every other file contributes its
log-return series under its derived ticker. -/
def load_assets (ln : K → K) :
    List (AssetFile K) → List (String × List (ℕ × K)) → List (String × List (ℕ × K))
  | [], acc => acc
  | f :: fs, acc =>
    if endsWithCsv f.name = false then load_assets ln fs acc
    else if f.hasClose = false then load_assets ln fs acc
    else if f.rows.length < min_history_days then load_assets ln fs acc
    else load_assets ln fs (upsert acc (tickerOf f.name) (daily_returns ln f.rows))

/-- The `all_returns` dict after the loader loop. -/
def all_returns (ln : K → K) (files : List (AssetFile K)) :
    List (String × List (ℕ × K)) :=
  load_assets ln files []

/-- The date index of one return series. -/
def seriesDates (s : List (ℕ × K)) : List ℕ := s.map Prod.fst

/-- The dates surviving `pd.DataFrame(all_returns).dropna()`: the dates of
the first series that occur in every other series (the inner join of the
date indexes). -/
def alignedDates : List (String × List (ℕ × K)) → List ℕ
  | [] => []
  | s :: rest => (seriesDates s.2).filter fun d => rest.all fun t => d ∈ seriesDates t.2

/-- Value of a series at a date (the dates used below always occur in the
series, so the default is never exercised). -/
def lookupDate (s : List (ℕ × K)) (d : ℕ) : K :=
  ((s.find? fun p => p.1 = d).map Prod.snd).getD 0

/-- The date-aligned return matrix `returns_df`: ticker column labels in
dict insertion order, the common date index, and one value column per
ticker. -/
structure AlignedMatrix (K : Type) where
  tickers : List String
  dates : List ℕ
  col : List (List K)

/-- Line 45: `returns_df = pd.DataFrame(all_returns).dropna()`. -/
def returns_df (rs : List (String × List (ℕ × K))) : AlignedMatrix K :=
  { tickers := rs.map Prod.fst
    dates := alignedDates rs
    col := rs.map fun s => (alignedDates rs).map fun d => lookupDate s.2 d }

/-- `pandas` column mean: sum over count. -/
def seriesMean (xs : List K) : K := xs.sum / (xs.length : K)

/-- `pandas` sample variance (`ddof = 1`): squared deviations over `n-1`;
`.std()` is its square root. -/
def sampleVar (xs : List K) : K :=
  ((xs.map fun x => (x - seriesMean xs) ^ 2).sum) / ((xs.length : K) - 1)

/-- `pandas` sample covariance of two aligned columns (`ddof = 1`). -/
def sampleCov (xs ys : List K) : K :=
  (((xs.zip ys).map fun p => (p.1 - seriesMean xs) * (p.2 - seriesMean ys)).sum) /
    (((xs.zip ys).length : K) - 1)

/-- Line 48: `mean_returns = returns_df.mean() * trading_days`. -/
def mean_returns (M : AlignedMatrix K) : List K :=
  M.col.map fun c => seriesMean c * (trading_days : K)

/-- Line 49: `volatility = returns_df.std() * np.sqrt(trading_days)`, with
`g` standing for the square root. -/
def volatility (g : K → K) (M : AlignedMatrix K) : List K :=
  M.col.map fun c => g (sampleVar c) * g (trading_days : K)

/-- The aligned column of a given ticker (`returns_df['SPY']`). -/
def columnOf (M : AlignedMatrix K) (t : String) : List K :=
  (((M.tickers.zip M.col).find? fun p => p.1 = t).map Prod.snd).getD []

/-- Lines 53-59: the market anchor, as the pair
(`market_return`, `market_sharpe`).  With `SPY` present both derive from
its aligned column; otherwise the anchor return is the cross-sectional
mean of the annualized means and the Sharpe falls back to `0.7`. -/
def marketStats (g : K → K) (M : AlignedMatrix K) : K × K :=
  if M.tickers.contains "SPY" then
    let spy := columnOf M "SPY"
    let mr := seriesMean spy * (trading_days : K)
    (mr, mr / (g (sampleVar spy) * g (trading_days : K)))
  else
    (seriesMean (mean_returns M), 7 / 10)

/-- Line 62: `sharpe_ratios = mean_returns / volatility` (elementwise). -/
def sharpe_ratios (g : K → K) (M : AlignedMatrix K) : List K :=
  List.zipWith (fun m v => m / v) (mean_returns M) (volatility g M)

/-- Lines 66-70: `tau = np.where(sharpe_ratios > 1.5 * market_sharpe,
0.20, 0.40)`, with the strict comparison of the source. -/
def tau (g : K → K) (M : AlignedMatrix K) : List K :=
  (sharpe_ratios g M).map fun s =>
    if 3 / 2 * (marketStats g M).2 < s then 1 / 5 else 2 / 5

/-- Line 72: `shrunken_returns = (1 - tau) * market_return + tau *
mean_returns` (elementwise). -/
def shrunken_returns (g : K → K) (M : AlignedMatrix K) : List K :=
  List.zipWith (fun t m => (1 - t) * (marketStats g M).1 + t * m)
    (tau g M) (mean_returns M)

/-- Line 83: `covariance_matrix = returns_df.cov() * trading_days`. -/
def covariance_matrix (M : AlignedMatrix K) : List (List K) :=
  M.col.map fun ci => M.col.map fun cj => sampleCov ci cj * (trading_days : K)

/-- The two output tables (lines 74-85): the summary columns `Ticker`,
`Mean` (shrunken), `Volatility`, and the covariance matrix keyed by the
same tickers on both axes. -/
structure Output (K : Type) where
  summaryTickers : List String
  summaryMeans : List K
  summaryVols : List K
  covTickers : List String
  covMatrix : List (List K)

/-- Assembly of both output tables from the aligned matrix. -/
def buildOutput (g : K → K) (M : AlignedMatrix K) : Output K :=
  { summaryTickers := M.tickers
    summaryMeans := shrunken_returns g M
    summaryVols := volatility g M
    covTickers := M.tickers
    covMatrix := covariance_matrix M }

/-- The whole run of `process_asset_data`: `none` models the early return
(line 40-42, message `No data to process.`, no files written), `some`
models a run that writes both output tables. -/
def process_asset_data (ln g : K → K) (files : List (AssetFile K)) : Option (Output K) :=
  if all_returns ln files = [] then none
  else some (buildOutput g (returns_df (all_returns ln files)))

/-- A file whose rows hold the constant close `c` on consecutive dates
`s, s+1, …, s+n-1`. -/
def constFile (name : String) (s n : ℕ) (c : K) : AssetFile K :=
  { name := name, hasClose := true, rows := (List.range' s n).map fun d => (d, c) }

/-- One qualifying file, constant price: the surviving ticker has zero
volatility. -/
def singleInput : List (AssetFile K) := [constFile "aaa_x.csv" 0 1260 1]

/-- Two qualifying files whose histories start `s₂` days apart. -/
def pairInput (s₂ : ℕ) : List (AssetFile K) :=
  [constFile "aaa_x.csv" 0 1260 1, constFile "bbb_x.csv" s₂ 1260 1]

/-- A three-date, two-ticker aligned matrix used to instantiate theorems
with hypotheses. -/
def demoM : AlignedMatrix ℝ :=
  { tickers := ["AAA", "BBB"], dates := [0, 1, 2], col := [[1, 2, 4], [2, 3, 5]] }

/-- A three-row price series used to instantiate the return theorems. -/
def demoRows : List (ℕ × ℝ) := [(0, 1), (1, 2), (2, 4)]

/-- The daily sample mean in the spec's words: sum of the column over its
count. -/
def specDailyMean (c : List K) : K := c.sum / (c.length : K)

/-- The daily sample standard deviation in the spec's words: square root
(`g`, instantiated with `Real.sqrt`) of the sum of squared deviations over
`n - 1`. -/
def specDailyStd (g : K → K) (c : List K) : K :=
  g ((c.map fun x => (x - specDailyMean c) ^ 2).sum / ((c.length : K) - 1))

/-- The daily pairwise sample covariance in the spec's words. -/
def specDailyCov (x y : List K) : K :=
  ((x.zip y).map fun p => (p.1 - specDailyMean x) * (p.2 - specDailyMean y)).sum /
    (((x.zip y).length : K) - 1)

/-- The spec's blend weight for ticker `i`: `tau_i = 0.20` if
`sharpe_i > 1.5 * marketSharpe` (strictly), else `tau_i = 0.40`, where
`sharpe_i = annualizedMean_i / annualizedVolatility_i`. -/
def specTau (g : K → K) (M : AlignedMatrix K) (i : ℕ) : K :=
  if 3 / 2 * (marketStats g M).2 <
      (mean_returns M).getD i 0 / (volatility g M).getD i 0
    then 1 / 5 else 2 / 5

/-- The spec's shrunken mean for ticker `i`:
`(1 - tau_i) * marketReturn + tau_i * annualizedMean_i`. -/
def specShrunkenMean (g : K → K) (M : AlignedMatrix K) (i : ℕ) : K :=
  (1 - specTau g M i) * (marketStats g M).1 + specTau g M i * (mean_returns M).getD i 0

/-! ### List access helpers -/

theorem getD_map {B C : Type} (f : B → C) :
    ∀ (l : List B) (i : ℕ), i < l.length → ∀ (d : C) (db : B),
      (l.map f).getD i d = f (l.getD i db) := by
  intro l
  induction l with
  | nil => intro i hi; simp at hi
  | cons a l ih =>
    intro i hi d db
    cases i with
    | zero => simp
    | succ n =>
      simp only [List.map_cons, List.getD_cons_succ]
      exact ih n (by simpa using hi) d db

theorem getD_zipWith {B : Type} (f : B → B → B) :
    ∀ (as bs : List B) (i : ℕ), i < as.length → i < bs.length →
      ∀ (d da db : B), (List.zipWith f as bs).getD i d = f (as.getD i da) (bs.getD i db) := by
  intro as
  induction as with
  | nil => intro bs i hi; simp at hi
  | cons a as ih =>
    intro bs i hi hj d da db
    cases bs with
    | nil => simp at hj
    | cons b bs =>
      cases i with
      | zero => simp [List.zipWith]
      | succ n =>
        simp only [List.zipWith, List.getD_cons_succ]
        exact ih bs n (by simpa using hi) (by simpa using hj) d da db

/-! ### Lengths of the per-ticker statistic lists -/

theorem length_mean_returns (M : AlignedMatrix K) :
    (mean_returns M).length = M.col.length := by
  simp [mean_returns]

theorem length_volatility (g : K → K) (M : AlignedMatrix K) :
    (volatility g M).length = M.col.length := by
  simp [volatility]

theorem length_sharpe_ratios (g : K → K) (M : AlignedMatrix K) :
    (sharpe_ratios g M).length = M.col.length := by
  simp [sharpe_ratios, length_mean_returns, length_volatility]

theorem length_tau (g : K → K) (M : AlignedMatrix K) :
    (tau g M).length = M.col.length := by
  simp [tau, length_sharpe_ratios]

theorem length_shrunken_returns (g : K → K) (M : AlignedMatrix K) :
    (shrunken_returns g M).length = M.col.length := by
  simp [shrunken_returns, length_tau, length_mean_returns]

/-! ### Pointwise values of the statistic lists -/

theorem getD_mean_returns (M : AlignedMatrix K) (i : ℕ) (hi : i < M.col.length) :
    (mean_returns M).getD i 0 = seriesMean (M.col.getD i []) * (trading_days : K) := by
  simpa [mean_returns] using
    getD_map (fun c => seriesMean c * (trading_days : K)) M.col i hi 0 []

theorem getD_volatility (g : K → K) (M : AlignedMatrix K) (i : ℕ) (hi : i < M.col.length) :
    (volatility g M).getD i 0 = g (sampleVar (M.col.getD i [])) * g (trading_days : K) := by
  simpa [volatility] using
    getD_map (fun c => g (sampleVar c) * g (trading_days : K)) M.col i hi 0 []

theorem getD_sharpe_ratios (g : K → K) (M : AlignedMatrix K) (i : ℕ) (hi : i < M.col.length) :
    (sharpe_ratios g M).getD i 0 =
      (mean_returns M).getD i 0 / (volatility g M).getD i 0 := by
  rw [sharpe_ratios,
    getD_zipWith (fun m v => m / v) (mean_returns M) (volatility g M) i
      (by rwa [length_mean_returns]) (by rwa [length_volatility]) 0 0 0]

theorem getD_tau (g : K → K) (M : AlignedMatrix K) (i : ℕ) (hi : i < M.col.length) :
    (tau g M).getD i 0 =
      if 3 / 2 * (marketStats g M).2 <
          (mean_returns M).getD i 0 / (volatility g M).getD i 0
        then (1 / 5 : K) else 2 / 5 := by
  rw [tau,
    getD_map (fun s => if 3 / 2 * (marketStats g M).2 < s then (1 / 5 : K) else 2 / 5)
      (sharpe_ratios g M) i (by rwa [length_sharpe_ratios]) 0 0,
    getD_sharpe_ratios g M i hi]

theorem getD_shrunken_returns (g : K → K) (M : AlignedMatrix K) (i : ℕ)
    (hi : i < M.col.length) :
    (shrunken_returns g M).getD i 0 =
      (1 - (tau g M).getD i 0) * (marketStats g M).1 +
        (tau g M).getD i 0 * (mean_returns M).getD i 0 := by
  rw [shrunken_returns,
    getD_zipWith (fun t m => (1 - t) * (marketStats g M).1 + t * m)
      (tau g M) (mean_returns M) i (by rwa [length_tau]) (by rwa [length_mean_returns]) 0 0 0]

/-! ### The return series -/

theorem length_daily_returns (ln : K → K) :
    ∀ rows : List (ℕ × K), (daily_returns ln rows).length = rows.length - 1 := by
  intro rows
  induction rows with
  | nil => simp [daily_returns]
  | cons p rows ih =>
    cases rows with
    | nil => simp [daily_returns]
    | cons q rest =>
      simp only [daily_returns, List.length_cons] at ih ⊢
      omega

theorem getD_daily_returns (ln : K → K) :
    ∀ (rows : List (ℕ × K)) (i : ℕ), i + 1 < rows.length →
      (daily_returns ln rows).getD i (0, 0) =
        ((rows.getD (i + 1) (0, 0)).1,
          ln ((rows.getD (i + 1) (0, 0)).2 / (rows.getD i (0, 0)).2)) := by
  intro rows
  induction rows with
  | nil => intro i hi; simp at hi
  | cons p rows ih =>
    intro i hi
    cases rows with
    | nil => simp at hi
    | cons q rest =>
      cases i with
      | zero => simp [daily_returns]
      | succ n =>
        simp only [daily_returns, List.getD_cons_succ]
        exact ih n (by simpa using hi)

/-! ### Sample statistics -/

theorem seriesMean_const (xs : List K) (a : K) (hne : xs ≠ []) (h : ∀ x ∈ xs, x = a) :
    seriesMean xs = a := by
  have hrep : xs = List.replicate xs.length a := List.eq_replicate_of_mem h
  have hlen0 : xs.length ≠ 0 := by simpa using hne
  have hlen : (xs.length : K) ≠ 0 := Nat.cast_ne_zero.mpr hlen0
  rw [seriesMean]
  nth_rewrite 1 [hrep]
  rw [List.sum_replicate, nsmul_eq_mul, mul_div_cancel_left₀ a hlen]

theorem sampleVar_const (xs : List K) (a : K) (h : ∀ x ∈ xs, x = a) :
    sampleVar xs = 0 := by
  rcases eq_or_ne xs [] with rfl | hne
  · simp [sampleVar, seriesMean]
  · have hmean : seriesMean xs = a := seriesMean_const xs a hne h
    have : ∀ x ∈ xs, (x - seriesMean xs) ^ 2 = 0 := by
      intro x hx; rw [hmean, h x hx, sub_self]; ring
    have hz : ((xs.map fun x => (x - seriesMean xs) ^ 2).sum) = 0 := by
      apply List.sum_eq_zero
      intro b hb
      rcases List.mem_map.mp hb with ⟨x, hx, rfl⟩
      exact this x hx
    rw [sampleVar, hz, zero_div]

theorem sampleVar_nonneg (xs : List K) : 0 ≤ sampleVar xs := by
  rcases eq_or_ne xs [] with rfl | hne
  · simp [sampleVar, seriesMean]
  · have hnum : 0 ≤ (xs.map fun x => (x - seriesMean xs) ^ 2).sum := by
      apply List.sum_nonneg
      intro b hb
      rcases List.mem_map.mp hb with ⟨x, _, rfl⟩
      positivity
    have hden : (0 : K) ≤ (xs.length : K) - 1 := by
      have : 1 ≤ xs.length := List.length_pos.mpr hne
      have : (1 : K) ≤ (xs.length : K) := by exact_mod_cast this
      linarith
    exact div_nonneg hnum hden

theorem zip_self_map {B C : Type} (f : B × B → C) :
    ∀ xs : List B, (xs.zip xs).map f = xs.map fun x => f (x, x) := by
  intro xs
  induction xs with
  | nil => simp
  | cons x xs ih => simp [List.zip_cons_cons, ih]

theorem sampleCov_self (xs : List K) : sampleCov xs xs = sampleVar xs := by
  rw [sampleCov, sampleVar,
    zip_self_map (fun p => (p.1 - seriesMean xs) * (p.2 - seriesMean xs)) xs]
  have : (xs.map fun x => (x - seriesMean xs) * (x - seriesMean xs)) =
      xs.map fun x => (x - seriesMean xs) ^ 2 := by
    apply List.map_congr_left; intro x _; ring
  rw [this]
  simp [List.length_zip]

theorem zip_sum_swap (a b : K) :
    ∀ xs ys : List K,
      ((xs.zip ys).map fun p => (p.1 - a) * (p.2 - b)).sum =
        ((ys.zip xs).map fun p => (p.1 - b) * (p.2 - a)).sum := by
  intro xs
  induction xs with
  | nil => intro ys; simp
  | cons x xs ih =>
    intro ys
    cases ys with
    | nil => simp
    | cons y ys => simp [List.zip_cons_cons, ih ys]; ring

theorem sampleCov_comm (xs ys : List K) : sampleCov xs ys = sampleCov ys xs := by
  rw [sampleCov, sampleCov, zip_sum_swap (seriesMean xs) (seriesMean ys) xs ys,
    List.length_zip, List.length_zip, Nat.min_comm]

/-- Being a convex combination with weight `t ∈ [0, 1]` keeps the value
between the two endpoints. -/
theorem convex_bounds (a b t : K) (h0 : 0 ≤ t) (h1 : t ≤ 1) :
    min a b ≤ (1 - t) * a + t * b ∧ (1 - t) * a + t * b ≤ max a b := by
  constructor
  · rcases le_total a b with h | h
    · rw [min_eq_left h]; nlinarith
    · rw [min_eq_right h]; nlinarith
  · rcases le_total a b with h | h
    · rw [max_eq_right h]; nlinarith
    · rw [max_eq_left h]; nlinarith

/-! ### Evaluating the loader on the concrete inputs -/

theorem daily_returns_const (ln : K → K) (c : K) :
    ∀ (n s : ℕ), daily_returns ln ((List.range' s n).map fun d => (d, c)) =
      (List.range' (s + 1) (n - 1)).map fun d => (d, ln (c / c)) := by
  intro n
  induction n with
  | zero => intro s; simp [daily_returns]
  | succ m ih =>
    intro s
    cases m with
    | zero => simp [daily_returns]
    | succ k =>
      have h1 : List.range' s (k + 2) = s :: List.range' (s + 1) (k + 1) := by
        simpa using List.range'_succ s (k + 1) 1
      have h2 : List.range' (s + 1) (k + 1) = (s + 1) :: List.range' (s + 2) k := by
        simpa using List.range'_succ (s + 1) k 1
      calc daily_returns ln ((List.range' s (k + 1 + 1)).map fun d => (d, c))
          = (s + 1, ln (c / c)) ::
              daily_returns ln ((List.range' (s + 1) (k + 1)).map fun d => (d, c)) := by
            rw [h1, h2]; rfl
        _ = (s + 1, ln (c / c)) ::
              ((List.range' (s + 2) (k + 1 - 1)).map fun d => (d, ln (c / c))) := by
            rw [ih (s + 1)]
        _ = (List.range' (s + 1) (k + 1 + 1 - 1)).map fun d => (d, ln (c / c)) := by
            simp only [Nat.add_sub_cancel]
            rw [h2]; rfl

theorem seriesDates_map (l : List ℕ) (c : K) :
    seriesDates (l.map fun d => ((d, c) : ℕ × K)) = l := by
  simp [seriesDates, List.map_map, Function.comp_def]

theorem returns_df_dates (rs : List (String × List (ℕ × K))) :
    (returns_df rs).dates = alignedDates rs := rfl

theorem returns_df_tickers (rs : List (String × List (ℕ × K))) :
    (returns_df rs).tickers = rs.map Prod.fst := rfl

theorem buildOutput_summaryTickers (g : K → K) (M : AlignedMatrix K) :
    (buildOutput g M).summaryTickers = M.tickers := rfl

theorem buildOutput_summaryMeans (g : K → K) (M : AlignedMatrix K) :
    (buildOutput g M).summaryMeans = shrunken_returns g M := rfl

theorem buildOutput_summaryVols (g : K → K) (M : AlignedMatrix K) :
    (buildOutput g M).summaryVols = volatility g M := rfl

theorem buildOutput_covTickers (g : K → K) (M : AlignedMatrix K) :
    (buildOutput g M).covTickers = M.tickers := rfl

theorem buildOutput_covMatrix (g : K → K) (M : AlignedMatrix K) :
    (buildOutput g M).covMatrix = covariance_matrix M := rfl

theorem returns_df_col (rs : List (String × List (ℕ × K))) :
    (returns_df rs).col =
      rs.map fun s => (alignedDates rs).map fun d => lookupDate s.2 d := rfl

theorem load_assets_nil (ln : K → K) (acc : List (String × List (ℕ × K))) :
    load_assets ln [] acc = acc := rfl

theorem load_assets_ok (ln : K → K) (f : AssetFile K) (fs : List (AssetFile K))
    (acc : List (String × List (ℕ × K)))
    (h1 : endsWithCsv f.name = true) (h2 : f.hasClose = true)
    (h3 : ¬ f.rows.length < min_history_days) :
    load_assets ln (f :: fs) acc =
      load_assets ln fs (upsert acc (tickerOf f.name) (daily_returns ln f.rows)) := by
  simp [load_assets, h1, h2, h3]

theorem upsert_nil {B : Type} (k : String) (v : B) :
    upsert ([] : List (String × B)) k v = [(k, v)] := by
  simp [upsert]

theorem upsert_new {B : Type} (acc : List (String × B)) (k : String) (v : B)
    (h : ∀ p ∈ acc, p.1 ≠ k) : upsert acc k v = acc ++ [(k, v)] := by
  have hc : ¬ (acc.any fun p => p.1 = k) = true := by
    simp only [List.any_eq_true, decide_eq_true_eq]
    rintro ⟨p, hp, hpk⟩
    exact h p hp hpk
  rw [upsert, if_neg hc]

theorem all_returns_single (ln : K → K) :
    all_returns ln (singleInput (K := K)) =
      [("AAA", (List.range' 1 1259).map fun d => (d, ln (1 / 1)))] := by
  have hname : (constFile "aaa_x.csv" 0 1260 (1 : K)).name = "aaa_x.csv" := rfl
  have hrows : (constFile "aaa_x.csv" 0 1260 (1 : K)).rows =
      (List.range' 0 1260).map fun d => (d, (1 : K)) := rfl
  have hcsv : endsWithCsv (constFile "aaa_x.csv" 0 1260 (1 : K)).name = true := by
    rw [hname]; decide
  have hlen : ¬ ((constFile "aaa_x.csv" 0 1260 (1 : K)).rows.length < min_history_days) := by
    rw [hrows]; simp [min_history_days]
  rw [all_returns, singleInput,
    load_assets_ok ln (constFile "aaa_x.csv" 0 1260 (1 : K)) [] [] hcsv rfl hlen,
    load_assets_nil, upsert_nil, hname, hrows,
    show tickerOf "aaa_x.csv" = "AAA" from by decide,
    daily_returns_const ln 1 1260 0]

theorem all_returns_pair (ln : K → K) (s₂ : ℕ) :
    all_returns ln (pairInput (K := K) s₂) =
      [("AAA", (List.range' 1 1259).map fun d => (d, ln (1 / 1))),
       ("BBB", (List.range' (s₂ + 1) 1259).map fun d => (d, ln (1 / 1)))] := by
  have hnameA : (constFile "aaa_x.csv" 0 1260 (1 : K)).name = "aaa_x.csv" := rfl
  have hrowsA : (constFile "aaa_x.csv" 0 1260 (1 : K)).rows =
      (List.range' 0 1260).map fun d => (d, (1 : K)) := rfl
  have hnameB : (constFile "bbb_x.csv" s₂ 1260 (1 : K)).name = "bbb_x.csv" := rfl
  have hrowsB : (constFile "bbb_x.csv" s₂ 1260 (1 : K)).rows =
      (List.range' s₂ 1260).map fun d => (d, (1 : K)) := rfl
  have hcsvA : endsWithCsv (constFile "aaa_x.csv" 0 1260 (1 : K)).name = true := by
    rw [hnameA]; decide
  have hcsvB : endsWithCsv (constFile "bbb_x.csv" s₂ 1260 (1 : K)).name = true := by
    rw [hnameB]; decide
  have hlenA : ¬ ((constFile "aaa_x.csv" 0 1260 (1 : K)).rows.length < min_history_days) := by
    rw [hrowsA]; simp [min_history_days]
  have hlenB : ¬ ((constFile "bbb_x.csv" s₂ 1260 (1 : K)).rows.length < min_history_days) := by
    rw [hrowsB]; simp [min_history_days]
  rw [all_returns, pairInput,
    load_assets_ok ln (constFile "aaa_x.csv" 0 1260 (1 : K)) _ [] hcsvA rfl hlenA,
    load_assets_ok ln (constFile "bbb_x.csv" s₂ 1260 (1 : K)) [] _ hcsvB rfl hlenB,
    load_assets_nil, upsert_nil, hnameA, hrowsA, hnameB, hrowsB,
    show tickerOf "aaa_x.csv" = "AAA" from by decide,
    show tickerOf "bbb_x.csv" = "BBB" from by decide,
    upsert_new _ "BBB" _ (by simp),
    daily_returns_const ln 1 1260 0, daily_returns_const ln 1 1260 s₂]
  rfl

/-! ### Evaluating the alignment on the concrete inputs -/

theorem alignedDates_single (t : String) (s : List (ℕ × K)) :
    alignedDates [(t, s)] = seriesDates s := by
  simp [alignedDates]

theorem alignedDates_pair (t₁ t₂ : String) (s₁ s₂ : List (ℕ × K)) :
    alignedDates [(t₁, s₁), (t₂, s₂)] =
      (seriesDates s₁).filter fun d => d ∈ seriesDates s₂ := by
  simp [alignedDates]

theorem lookupDate_const (s : List (ℕ × K)) (v : K) (d : ℕ)
    (hv : ∀ p ∈ s, p.2 = v) (hd : d ∈ seriesDates s) : lookupDate s d = v := by
  rcases List.mem_map.mp hd with ⟨p, hp, hpd⟩
  have hsome : (s.find? fun q => q.1 = d).isSome := by
    rw [List.find?_isSome]
    exact ⟨p, hp, by simp [hpd]⟩
  rcases Option.isSome_iff_exists.mp hsome with ⟨q, hq⟩
  have hqmem : q ∈ s := List.mem_of_find?_eq_some hq
  rw [lookupDate, hq]
  simp [hv q hqmem]

theorem volatility_single (g : K → K) (t : String) (s : List (ℕ × K)) (v : K)
    (hv : ∀ p ∈ s, p.2 = v) :
    volatility g (returns_df [(t, s)]) = [g 0 * g (trading_days : K)] := by
  rw [volatility, returns_df_col]
  simp only [List.map_cons, List.map_nil]
  have hconst : ∀ x ∈ (alignedDates [(t, s)]).map fun d => lookupDate s d, x = v := by
    intro x hx
    rcases List.mem_map.mp hx with ⟨d, hd, rfl⟩
    rw [alignedDates_single] at hd
    exact lookupDate_const s v d hv hd
  rw [sampleVar_const _ v hconst]

theorem singleInput_volatility (ln g : K → K) :
    volatility g (returns_df (all_returns ln (singleInput (K := K)))) =
      [g 0 * g (trading_days : K)] := by
  rw [all_returns_single]
  exact volatility_single g "AAA" _ (ln (1 / 1)) (by
    intro p hp; rcases List.mem_map.mp hp with ⟨d, _, rfl⟩; rfl)

theorem process_eq_some (ln g : K → K) (files : List (AssetFile K))
    (h : all_returns ln files ≠ []) :
    process_asset_data ln g files =
      some (buildOutput g (returns_df (all_returns ln files))) := by
  rw [process_asset_data, if_neg h]

theorem pairInput_dates (ln : K → K) (s₂ : ℕ) :
    (returns_df (all_returns ln (pairInput (K := K) s₂))).dates =
      (List.range' 1 1259).filter fun d => d ∈ List.range' (s₂ + 1) 1259 := by
  rw [returns_df_dates, all_returns_pair]
  simp [alignedDates_pair, seriesDates_map]

theorem noOverlap_dates (ln : K → K) :
    (returns_df (all_returns ln (pairInput (K := K) 2000))).dates = [] := by
  rw [pairInput_dates, List.filter_eq_nil_iff]
  intro a ha
  simp [List.mem_range'_1] at ha ⊢
  omega

theorem oneRow_dates (ln : K → K) :
    (returns_df (all_returns ln (pairInput (K := K) 1258))).dates = [1259] := by
  rw [pairInput_dates]
  have hsplit : List.range' 1 1259 = List.range' 1 1258 ++ List.range' 1259 1 := by
    have := List.range'_append 1 1258 1 1
    norm_num at this
    exact this.symm
  rw [hsplit, List.filter_append]
  have h1 : ((List.range' 1 1258).filter fun d => d ∈ List.range' (1258 + 1) 1259) = [] := by
    rw [List.filter_eq_nil_iff]
    intro a ha
    simp [List.mem_range'_1] at ha ⊢
    omega
  have h2 : ((List.range' 1259 1).filter fun d => d ∈ List.range' (1258 + 1) 1259) = [1259] := by
    rw [List.range'_one]
    simp [List.mem_range'_1]
  rw [h1, h2, List.nil_append]

/-! ### The claims -/

/-- C1: for every ticker the emitted mean is
`(1 - tau_i) * marketReturn + tau_i * annualizedMean_i` with
`tau_i = 0.20` exactly when `sharpe_i > 1.5 * marketSharpe` (strict) and
`tau_i = 0.40` otherwise; in particular `sharpe_i = 1.5 * marketSharpe`
resolves to `tau_i = 0.40`. -/
theorem shrinkage_formula_correct (M : AlignedMatrix ℝ) (i : ℕ) (hi : i < M.col.length) :
    (buildOutput Real.sqrt M).summaryMeans.getD i 0 = specShrunkenMean Real.sqrt M i ∧
    ((mean_returns M).getD i 0 / (volatility Real.sqrt M).getD i 0 =
        3 / 2 * (marketStats Real.sqrt M).2 →
      (tau Real.sqrt M).getD i 0 = 2 / 5) := by
  constructor
  · rw [show (buildOutput Real.sqrt M).summaryMeans = shrunken_returns Real.sqrt M from rfl,
      getD_shrunken_returns Real.sqrt M i hi, getD_tau Real.sqrt M i hi,
      specShrunkenMean, specTau]
  · intro heq
    rw [getD_tau Real.sqrt M i hi, heq, if_neg (lt_irrefl _)]

theorem shrinkage_formula_correct_witness :
    0 < demoM.col.length ∧
      ((buildOutput Real.sqrt demoM).summaryMeans.getD 0 0 =
          specShrunkenMean Real.sqrt demoM 0 ∧
        ((mean_returns demoM).getD 0 0 / (volatility Real.sqrt demoM).getD 0 0 =
            3 / 2 * (marketStats Real.sqrt demoM).2 →
          (tau Real.sqrt demoM).getD 0 0 = 2 / 5)) :=
  ⟨by decide, shrinkage_formula_correct demoM 0 (by decide)⟩

/-- C2: for a price series of length at least two, the derived log-return
series has length `n - 1` and its entry at position `i` (the return of row
`i + 1`, the first row being dropped) is
`ln(close_(i+1) / close_i)` at date `i + 1`. -/
theorem log_return_series_spec (rows : List (ℕ × ℝ)) (h2 : 2 ≤ rows.length) :
    (daily_returns Real.log rows).length = rows.length - 1 ∧
    ∀ i, i + 1 < rows.length →
      (daily_returns Real.log rows).getD i (0, 0) =
        ((rows.getD (i + 1) (0, 0)).1,
          Real.log ((rows.getD (i + 1) (0, 0)).2 / (rows.getD i (0, 0)).2)) :=
  ⟨length_daily_returns Real.log rows, fun i hi => getD_daily_returns Real.log rows i hi⟩

theorem log_return_series_spec_witness :
    2 ≤ demoRows.length ∧
      ((daily_returns Real.log demoRows).length = demoRows.length - 1 ∧
        ∀ i, i + 1 < demoRows.length →
          (daily_returns Real.log demoRows).getD i (0, 0) =
            ((demoRows.getD (i + 1) (0, 0)).1,
              Real.log ((demoRows.getD (i + 1) (0, 0)).2 / (demoRows.getD i (0, 0)).2))) :=
  ⟨by decide, log_return_series_spec demoRows (by decide)⟩

/-- C3: annualizedMean is the daily sample mean times 252,
annualizedVolatility is the daily sample standard deviation times
`sqrt 252`, and every covariance entry is the daily sample covariance
times 252. -/
theorem annualization_spec (M : AlignedMatrix ℝ) (i j : ℕ)
    (hi : i < M.col.length) (hj : j < M.col.length) :
    (mean_returns M).getD i 0 = specDailyMean (M.col.getD i []) * 252 ∧
    (volatility Real.sqrt M).getD i 0 = specDailyStd Real.sqrt (M.col.getD i []) * Real.sqrt 252 ∧
    ((covariance_matrix M).getD i []).getD j 0 =
      specDailyCov (M.col.getD i []) (M.col.getD j []) * 252 := by
  refine ⟨?_, ?_, ?_⟩
  · rw [getD_mean_returns M i hi]
    norm_num [seriesMean, specDailyMean, trading_days]
  · rw [getD_volatility Real.sqrt M i hi]
    norm_num [specDailyStd, specDailyMean, sampleVar, seriesMean, trading_days]
  · rw [covariance_matrix,
      getD_map (fun ci => M.col.map fun cj => sampleCov ci cj * (trading_days : ℝ))
        M.col i hi [] [],
      getD_map (fun cj => sampleCov (M.col.getD i []) cj * (trading_days : ℝ))
        M.col j hj 0 []]
    norm_num [sampleCov, specDailyCov, specDailyMean, seriesMean, trading_days]

theorem annualization_spec_witness :
    (0 < demoM.col.length ∧ 1 < demoM.col.length) ∧
      ((mean_returns demoM).getD 0 0 = specDailyMean (demoM.col.getD 0 []) * 252 ∧
        (volatility Real.sqrt demoM).getD 0 0 =
          specDailyStd Real.sqrt (demoM.col.getD 0 []) * Real.sqrt 252 ∧
        ((covariance_matrix demoM).getD 0 []).getD 1 0 =
          specDailyCov (demoM.col.getD 0 []) (demoM.col.getD 1 []) * 252) :=
  ⟨⟨by decide, by decide⟩, annualization_spec demoM 0 1 (by decide) (by decide)⟩

/-- C7: every emitted shrunken mean lies between the market return and
the ticker's annualized mean, inclusive. -/
theorem shrunken_mean_convex (M : AlignedMatrix ℝ) (i : ℕ) (hi : i < M.col.length) :
    min (marketStats Real.sqrt M).1 ((mean_returns M).getD i 0) ≤
      (buildOutput Real.sqrt M).summaryMeans.getD i 0 ∧
    (buildOutput Real.sqrt M).summaryMeans.getD i 0 ≤
      max (marketStats Real.sqrt M).1 ((mean_returns M).getD i 0) := by
  rw [show (buildOutput Real.sqrt M).summaryMeans = shrunken_returns Real.sqrt M from rfl,
    getD_shrunken_returns Real.sqrt M i hi, getD_tau Real.sqrt M i hi]
  split
  · exact convex_bounds _ _ (1 / 5) (by norm_num) (by norm_num)
  · exact convex_bounds _ _ (2 / 5) (by norm_num) (by norm_num)

theorem shrunken_mean_convex_witness :
    0 < demoM.col.length ∧
      (min (marketStats Real.sqrt demoM).1 ((mean_returns demoM).getD 0 0) ≤
          (buildOutput Real.sqrt demoM).summaryMeans.getD 0 0 ∧
        (buildOutput Real.sqrt demoM).summaryMeans.getD 0 0 ≤
          max (marketStats Real.sqrt demoM).1 ((mean_returns demoM).getD 0 0)) :=
  ⟨by decide, shrunken_mean_convex demoM 0 (by decide)⟩

/-- C8: the annualized covariance matrix is symmetric and its diagonal
entry for a ticker is the square of that ticker's annualized volatility. -/
theorem covariance_symmetric_diagonal (M : AlignedMatrix ℝ) (i j : ℕ)
    (hi : i < M.col.length) (hj : j < M.col.length) :
    ((covariance_matrix M).getD i []).getD j 0 =
      ((covariance_matrix M).getD j []).getD i 0 ∧
    ((covariance_matrix M).getD i []).getD i 0 =
      ((volatility Real.sqrt M).getD i 0) ^ 2 := by
  have hgd : ∀ a b : ℕ, a < M.col.length → b < M.col.length →
      ((covariance_matrix M).getD a []).getD b 0 =
        sampleCov (M.col.getD a []) (M.col.getD b []) * (trading_days : ℝ) := by
    intro a b ha hb
    rw [covariance_matrix,
      getD_map (fun ci => M.col.map fun cj => sampleCov ci cj * (trading_days : ℝ))
        M.col a ha [] [],
      getD_map (fun cj => sampleCov (M.col.getD a []) cj * (trading_days : ℝ))
        M.col b hb 0 []]
  constructor
  · rw [hgd i j hi hj, hgd j i hj hi, sampleCov_comm]
  · rw [hgd i i hi hi, getD_volatility Real.sqrt M i hi, sampleCov_self, mul_pow,
      Real.sq_sqrt (sampleVar_nonneg _), Real.sq_sqrt (by positivity)]

theorem covariance_symmetric_diagonal_witness :
    (0 < demoM.col.length ∧ 1 < demoM.col.length) ∧
      (((covariance_matrix demoM).getD 0 []).getD 1 0 =
          ((covariance_matrix demoM).getD 1 []).getD 0 0 ∧
        ((covariance_matrix demoM).getD 0 []).getD 0 0 =
          ((volatility Real.sqrt demoM).getD 0 0) ^ 2) :=
  ⟨⟨by decide, by decide⟩, covariance_symmetric_diagonal demoM 0 1 (by decide) (by decide)⟩

/-- C4 counterexample: on a qualifying constant-price asset the surviving
ticker's annualized volatility is `0`, yet the run does not abort — it
writes both output tables (the code contains no zero-volatility guard). -/
theorem zero_volatility_no_failure_cex :
    (buildOutput Real.sqrt (returns_df (all_returns Real.log (singleInput (K := ℝ))))).summaryVols
        = [0] ∧
    process_asset_data Real.log Real.sqrt (singleInput (K := ℝ)) =
      some (buildOutput Real.sqrt (returns_df (all_returns Real.log (singleInput (K := ℝ))))) := by
  constructor
  · rw [buildOutput_summaryVols, singleInput_volatility Real.log Real.sqrt,
      Real.sqrt_zero, zero_mul]
  · apply process_eq_some
    rw [all_returns_single]
    simp

/-- C4 (amended): with a zero-volatility surviving ticker the run does not
fail with an `InvalidInputError` — no such check exists; whenever at least
one ticker survives loading the run completes and writes both output
tables, the unguarded division by zero volatility notwithstanding. -/
theorem zero_volatility_run_completes (ln g : K → K) (files : List (AssetFile K))
    (h : all_returns ln files ≠ [])
    (hv : (0 : K) ∈ (buildOutput g (returns_df (all_returns ln files))).summaryVols) :
    process_asset_data ln g files =
      some (buildOutput g (returns_df (all_returns ln files))) :=
  process_eq_some ln g files h

theorem zero_volatility_run_completes_witness :
    (all_returns (id : ℚ → ℚ) (singleInput (K := ℚ)) ≠ [] ∧
      (0 : ℚ) ∈ (buildOutput (id : ℚ → ℚ)
        (returns_df (all_returns (id : ℚ → ℚ) (singleInput (K := ℚ))))).summaryVols) ∧
    process_asset_data (id : ℚ → ℚ) (id : ℚ → ℚ) (singleInput (K := ℚ)) =
      some (buildOutput (id : ℚ → ℚ)
        (returns_df (all_returns (id : ℚ → ℚ) (singleInput (K := ℚ))))) := by
  have h1 : all_returns (id : ℚ → ℚ) (singleInput (K := ℚ)) ≠ [] := by
    rw [all_returns_single]; simp
  have h2 : (0 : ℚ) ∈ (buildOutput (id : ℚ → ℚ)
      (returns_df (all_returns (id : ℚ → ℚ) (singleInput (K := ℚ))))).summaryVols := by
    rw [buildOutput_summaryVols, singleInput_volatility id id]
    simp
  exact ⟨⟨h1, h2⟩, zero_volatility_run_completes id id (singleInput (K := ℚ)) h1 h2⟩

/-- C5 counterexample: two qualifying tickers whose return series share
exactly one date give an aligned matrix with a single row, yet the run
does not abort with an `InsufficientDataError` — it writes both tables. -/
theorem insufficient_rows_no_failure_cex :
    (returns_df (all_returns Real.log (pairInput (K := ℝ) 1258))).dates = [1259] ∧
    (process_asset_data Real.log Real.sqrt (pairInput (K := ℝ) 1258)).isSome = true := by
  have h : all_returns Real.log (pairInput (K := ℝ) 1258) ≠ [] := by
    rw [all_returns_pair]; simp
  refine ⟨oneRow_dates Real.log, ?_⟩
  rw [process_eq_some Real.log Real.sqrt _ h]
  rfl

/-- C5 (amended): with fewer than two aligned rows (and at least one
surviving ticker) the run does not fail — no such check exists; it
completes and writes both output tables, the degenerate sample statistics
notwithstanding. -/
theorem insufficient_rows_run_completes (ln g : K → K) (files : List (AssetFile K))
    (h : all_returns ln files ≠ [])
    (hr : (returns_df (all_returns ln files)).dates.length < 2) :
    process_asset_data ln g files =
      some (buildOutput g (returns_df (all_returns ln files))) :=
  process_eq_some ln g files h

theorem insufficient_rows_run_completes_witness :
    (all_returns (id : ℚ → ℚ) (pairInput (K := ℚ) 1258) ≠ [] ∧
      (returns_df (all_returns (id : ℚ → ℚ) (pairInput (K := ℚ) 1258))).dates.length < 2) ∧
    process_asset_data (id : ℚ → ℚ) (id : ℚ → ℚ) (pairInput (K := ℚ) 1258) =
      some (buildOutput (id : ℚ → ℚ)
        (returns_df (all_returns (id : ℚ → ℚ) (pairInput (K := ℚ) 1258)))) := by
  have h1 : all_returns (id : ℚ → ℚ) (pairInput (K := ℚ) 1258) ≠ [] := by
    rw [all_returns_pair]; simp
  have h2 : (returns_df (all_returns (id : ℚ → ℚ) (pairInput (K := ℚ) 1258))).dates.length < 2 := by
    rw [oneRow_dates (id : ℚ → ℚ)]
    decide
  exact ⟨⟨h1, h2⟩, insufficient_rows_run_completes id id (pairInput (K := ℚ) 1258) h1 h2⟩

/-- C6 counterexample: two tickers survive loading but their return dates
do not intersect; the aligned matrix has zero rows, yet the run does not
abort — it still writes both output tables. -/
theorem empty_intersection_no_abort_cex :
    (returns_df (all_returns Real.log (pairInput (K := ℝ) 2000))).tickers = ["AAA", "BBB"] ∧
    (returns_df (all_returns Real.log (pairInput (K := ℝ) 2000))).dates = [] ∧
    (process_asset_data Real.log Real.sqrt (pairInput (K := ℝ) 2000)).isSome = true := by
  have h : all_returns Real.log (pairInput (K := ℝ) 2000) ≠ [] := by
    rw [all_returns_pair]; simp
  refine ⟨?_, noOverlap_dates Real.log, ?_⟩
  · rw [returns_df_tickers, all_returns_pair]
    rfl
  · rw [process_eq_some Real.log Real.sqrt _ h]
    rfl

/-- C6 (amended): when zero tickers survive loading the run aborts before
estimation, reporting the empty dataset and emitting no output; but an
empty date intersection does not abort — whenever at least one ticker
survives, the run completes and writes both tables. -/
theorem empty_dataset_abort_behavior :
    (∀ (ln g : K → K) (files : List (AssetFile K)),
        all_returns ln files = [] → process_asset_data ln g files = none) ∧
    (∀ (ln g : K → K) (files : List (AssetFile K)),
        all_returns ln files ≠ [] → (process_asset_data ln g files).isSome = true) := by
  constructor
  · intro ln g files h
    rw [process_asset_data, if_pos h]
  · intro ln g files h
    rw [process_eq_some ln g files h]
    rfl

theorem empty_dataset_abort_behavior_witness :
    (all_returns (id : ℚ → ℚ) ([] : List (AssetFile ℚ)) = [] ∧
      process_asset_data (id : ℚ → ℚ) (id : ℚ → ℚ) ([] : List (AssetFile ℚ)) = none) ∧
    (all_returns (id : ℚ → ℚ) (pairInput (K := ℚ) 2000) ≠ [] ∧
      (process_asset_data (id : ℚ → ℚ) (id : ℚ → ℚ) (pairInput (K := ℚ) 2000)).isSome = true) := by
  have h0 : all_returns (id : ℚ → ℚ) ([] : List (AssetFile ℚ)) = [] := rfl
  have h1 : all_returns (id : ℚ → ℚ) (pairInput (K := ℚ) 2000) ≠ [] := by
    rw [all_returns_pair]; simp
  exact ⟨⟨h0, (empty_dataset_abort_behavior (K := ℚ)).1 id id [] h0⟩,
    ⟨h1, (empty_dataset_abort_behavior (K := ℚ)).2 id id _ h1⟩⟩

/-- C9 counterexample: on the source file name `gdx.csv` the pipeline of
`process_assets.py` derives the ticker `GDX.CSV` while `analyze_returns.py`
derives `GDX`; since the two disagree, no single
substring-before-the-first-delimiter rule is used throughout. -/
theorem ticker_rule_cex :
    tickerOf "gdx.csv" = "GDX.CSV" ∧ tickerOfAnalyze "gdx.csv" = "GDX" ∧
      tickerOf "gdx.csv" ≠ tickerOfAnalyze "gdx.csv" :=
  ⟨by decide, by decide, by decide⟩

/-- C9 (amended): the main pipeline (`process_assets.py`) derives the
ticker as the substring of the file name before the first underscore (the
whole name when there is none), upper-cased; the analysis script agrees on
underscore-delimited names such as `slv_us_d.csv`, but on names whose
first delimiter is a dot (such as `gdx.csv`) it additionally truncates at
the dot and so computes a different symbol. -/
theorem ticker_rule_amended :
    (∀ name, tickerOf name = specTicker ['_'] name) ∧
    tickerOfAnalyze "slv_us_d.csv" = specTicker ['_'] "slv_us_d.csv" ∧
    tickerOfAnalyze "gdx.csv" ≠ specTicker ['_'] "gdx.csv" := by
  refine ⟨?_, by decide, by decide⟩
  intro name
  have hp : (fun c : Char => (decide (c ≠ '_') : Bool)) =
      fun c : Char => (decide (c ∉ (['_'] : List Char)) : Bool) := by
    funext c
    simp
  rw [tickerOf, specTicker, hp]

/-- C10: whenever the run produces its outputs, the summary rows and the
covariance matrix rows and columns are keyed by the same ticker sequence:
the two label lists coincide and every emitted list has that common
length (the covariance matrix is square over it). -/
theorem summary_covariance_same_tickers (ln g : K → K) (files : List (AssetFile K))
    (out : Output K) (h : process_asset_data ln g files = some out) :
    out.summaryTickers = out.covTickers ∧
    out.summaryMeans.length = out.summaryTickers.length ∧
    out.summaryVols.length = out.summaryTickers.length ∧
    out.covMatrix.length = out.covTickers.length ∧
    ∀ r ∈ out.covMatrix, r.length = out.covTickers.length := by
  by_cases he : all_returns ln files = []
  · rw [process_asset_data, if_pos he] at h
    exact absurd h (by simp)
  · rw [process_eq_some ln g files he, Option.some_inj] at h
    obtain rfl := h.symm
    have hcol : (returns_df (all_returns ln files)).col.length = (all_returns ln files).length := by
      rw [returns_df_col]
      simp
    have htick : (returns_df (all_returns ln files)).tickers.length
        = (all_returns ln files).length := by
      rw [returns_df_tickers]
      simp
    refine ⟨rfl, ?_, ?_, ?_, ?_⟩
    · rw [buildOutput_summaryMeans, buildOutput_summaryTickers,
        length_shrunken_returns, hcol, htick]
    · rw [buildOutput_summaryVols, buildOutput_summaryTickers,
        length_volatility, hcol, htick]
    · rw [buildOutput_covMatrix, buildOutput_covTickers, covariance_matrix,
        List.length_map, hcol, htick]
    · intro r hr
      rw [buildOutput_covMatrix, covariance_matrix] at hr
      rcases List.mem_map.mp hr with ⟨ci, _, rfl⟩
      rw [buildOutput_covTickers, List.length_map, hcol, htick]

theorem summary_covariance_same_tickers_witness :
    process_asset_data (id : ℚ → ℚ) (id : ℚ → ℚ) (singleInput (K := ℚ)) =
      some (buildOutput (id : ℚ → ℚ)
        (returns_df (all_returns (id : ℚ → ℚ) (singleInput (K := ℚ))))) ∧
    ((buildOutput (id : ℚ → ℚ)
        (returns_df (all_returns (id : ℚ → ℚ) (singleInput (K := ℚ))))).summaryTickers =
      (buildOutput (id : ℚ → ℚ)
        (returns_df (all_returns (id : ℚ → ℚ) (singleInput (K := ℚ))))).covTickers ∧
      (buildOutput (id : ℚ → ℚ)
        (returns_df (all_returns (id : ℚ → ℚ) (singleInput (K := ℚ))))).summaryMeans.length =
      (buildOutput (id : ℚ → ℚ)
        (returns_df (all_returns (id : ℚ → ℚ) (singleInput (K := ℚ))))).summaryTickers.length ∧
      (buildOutput (id : ℚ → ℚ)
        (returns_df (all_returns (id : ℚ → ℚ) (singleInput (K := ℚ))))).summaryVols.length =
      (buildOutput (id : ℚ → ℚ)
        (returns_df (all_returns (id : ℚ → ℚ) (singleInput (K := ℚ))))).summaryTickers.length ∧
      (buildOutput (id : ℚ → ℚ)
        (returns_df (all_returns (id : ℚ → ℚ) (singleInput (K := ℚ))))).covMatrix.length =
      (buildOutput (id : ℚ → ℚ)
        (returns_df (all_returns (id : ℚ → ℚ) (singleInput (K := ℚ))))).covTickers.length ∧
      ∀ r ∈ (buildOutput (id : ℚ → ℚ)
        (returns_df (all_returns (id : ℚ → ℚ) (singleInput (K := ℚ))))).covMatrix,
        r.length = (buildOutput (id : ℚ → ℚ)
          (returns_df (all_returns (id : ℚ → ℚ) (singleInput (K := ℚ))))).covTickers.length) := by
  have h1 : all_returns (id : ℚ → ℚ) (singleInput (K := ℚ)) ≠ [] := by
    rw [all_returns_single]; simp
  have h := process_eq_some (id : ℚ → ℚ) (id : ℚ → ℚ) (singleInput (K := ℚ)) h1
  exact ⟨h, summary_covariance_same_tickers id id (singleInput (K := ℚ)) _ h⟩

end ProcessAssets
